import Mathlib

/-!
Verification of the `robot_obo_tool` command builder and invoker.

A shallow embedding of `src/robot_obo_tool/api.py`, the wrapper around the
external ROBOT ontology tool.  Pure data transformations (`convert`'s argument
assembly, `_is_remote`, the `ROBOTError` constructor together with the
`textwrap.shorten` preview it computes) are translated as Lean functions;
the effectful pieces (`shutil.which`, `subprocess.check_output`, jar
resolution, file checks) are abstracted as explicit oracles passed in through
a `RobotEnv` record, so that `call_robot` and `is_available` become pure
functions of those oracles.
-/

namespace RobotOboTool

/-- A Python `str | Path` value, as accepted by `convert` for its
`input_path` and `output_path` parameters.  A `Path` is carried together with
the string `str(p)` renders it to. -/
inductive StrOrPath where
  | str (s : String)
  | path (p : String)
deriving DecidableEq

/-- Python `str(x)` applied to a `str | Path` value: a string is itself, a
`Path` renders to its carried string form. -/
def StrOrPath.strOf : StrOrPath → String
  | .str s => s
  | .path p => p

/-- api.py lines 177-183: the prefixes that denote remote resources
(`PROTOCOLS`). -/
def PROTOCOLS : List String := ["https://", "http://", "ftp://", "ftps://"]

/-- Python `s.startswith(p)`: `p`'s characters are a prefix of `s`'s. -/
def pyStartsWith (s p : String) : Bool :=
  p.data.isPrefixOf s.data

/-- api.py lines 186-187, `_is_remote`:
`isinstance(url, str) and any(url.startswith(protocol) for protocol in PROTOCOLS)`. -/
def _is_remote (url : StrOrPath) : Bool :=
  match url with
  | .str s => PROTOCOLS.any (fun protocol => pyStartsWith s protocol)
  | .path _ => false

/-- The `Literal["-i", "-I"]` type of the `input_flag` parameter of
`convert` (api.py line 96). -/
inductive InputFlag where
  | li
  | ri
deriving DecidableEq

/-- The command-line spelling of an input flag: `li` is the local flag
`"-i"`, `ri` is the remote flag `"-I"`. -/
def InputFlag.render : InputFlag → String
  | .li => "-i"
  | .ri => "-I"

/-- The parameters of `convert` (api.py lines 93-103), the spec's
`ConversionRequest`. -/
structure ConversionRequest where
  input_path : StrOrPath
  output_path : StrOrPath
  input_flag : Option InputFlag
  merge : Bool
  fmt : Option String
  check : Bool
  reason : Bool
  extra_args : Option (List String)
  debug : Bool

/-- api.py lines 129-130: when no explicit flag is given, infer `"-I"` for a
remote input and `"-i"` otherwise. -/
def resolveInputFlag (req : ConversionRequest) : InputFlag :=
  match req.input_flag with
  | some f => f
  | none => if _is_remote req.input_path then .ri else .li

/-- api.py lines 134-162: the `if merge and not reason / elif merge and
reason / elif not merge and reason / else` chain selecting the pipeline
stage tokens. -/
def stageTokens (req : ConversionRequest) : List String :=
  let flag := (resolveInputFlag req).render
  let inp := req.input_path.strOf
  if req.merge && !req.reason then
    ["merge", flag, inp, "convert"]
  else if req.merge && req.reason then
    ["merge", flag, inp, "reason", "convert"]
  else if !req.merge && req.reason then
    ["reason", flag, inp, "convert"]
  else
    ["convert", flag, inp]

/-- api.py lines 165-166: `if extra_args: args.extend(extra_args)`.
Python truthiness: both `None` and the empty list contribute nothing. -/
def extrasTokens (req : ConversionRequest) : List String :=
  match req.extra_args with
  | some extras => if extras.isEmpty then [] else extras
  | none => []

/-- api.py lines 167-168: `if not check: args.append("--check=false")`. -/
def checkTokens (req : ConversionRequest) : List String :=
  if !req.check then ["--check=false"] else []

/-- api.py lines 169-170: `if fmt: args.extend(("--format", fmt))`.
Python truthiness: both `None` and the empty string contribute nothing. -/
def fmtTokens (req : ConversionRequest) : List String :=
  match req.fmt with
  | some f => if f.isEmpty then [] else ["--format", f]
  | none => []

/-- api.py lines 171-172: `if debug: args.append("-vvv")`. -/
def debugTokens (req : ConversionRequest) : List String :=
  if req.debug then ["-vvv"] else []

/-- api.py lines 132-172: the complete argument list that `convert` builds
and passes to `call_robot`. -/
def buildConvertArgs (req : ConversionRequest) : List String :=
  stageTokens req ++ ["-o", req.output_path.strOf] ++ extrasTokens req
    ++ checkTokens req ++ fmtTokens req ++ debugTokens req

/-! ## The `textwrap.shorten` preview used by `ROBOTError`

`ROBOTError.__init__` (api.py lines 221-222) computes
`indent(shorten(text, preview_length), "  ")` for each stream.
`textwrap.shorten(text, width)` first collapses whitespace
(`' '.join(text.split())`) and then wraps the result to a single line of at
most `width` characters, dropping whole words from the end and appending the
placeholder `" [...]"` when the collapsed text does not fit (long words are
chopped with `break_long_words=True`; the `break_on_hyphens` sub-splitting of
hyphenated words is not modelled, it only moves the cut point inside one
word and affects none of the stated bounds).  The model works on `List Char`
so that lengths and splits are ordinary list operations. -/

/-- Python `str.isspace` for the characters `str.split` splits on
(ASCII whitespace). -/
def pyIsSpace (c : Char) : Bool :=
  c = ' ' || c = '\t' || c = '\n' || c = '\r' || c = '\x0b' || c = '\x0c'

/-- Python `str.split()` (no separator): maximal runs of non-whitespace
characters; `acc` is the current run, reversed. -/
def pySplitAux : List Char → List Char → List (List Char)
  | [], acc => if acc.isEmpty then [] else [acc.reverse]
  | c :: cs, acc =>
    if pyIsSpace c then
      if acc.isEmpty then pySplitAux cs [] else acc.reverse :: pySplitAux cs []
    else
      pySplitAux cs (c :: acc)

/-- Python `str.split()` with no argument. -/
def pySplit (l : List Char) : List (List Char) :=
  pySplitAux l []

/-- Python `' '.join(words)`. -/
def joinSpace : List (List Char) → List Char
  | [] => []
  | [w] => w
  | w :: ws => w ++ ' ' :: joinSpace ws

/-- The chunk sequence `TextWrapper._split` produces for an already
whitespace-collapsed text: words alternating with single-space chunks. -/
def wsChunks : List (List Char) → List (List Char)
  | [] => []
  | [w] => [w]
  | w :: ws => w :: [' '] :: wsChunks ws

/-- The greedy packing loop of `TextWrapper._wrap_chunks`: keep taking
chunks while the accumulated length stays within `width`.  Returns the
chunks taken for the line and the chunks left over. -/
def greedyFill (width : Nat) : Nat → List (List Char) → List (List Char) × List (List Char)
  | _, [] => ([], [])
  | len, c :: cs =>
    if len + c.length ≤ width then
      let r := greedyFill width (len + c.length) cs
      (c :: r.1, r.2)
    else ([], c :: cs)

/-- The `max_lines` placeholder logic at the end of
`TextWrapper._wrap_chunks`: walking the line chunks from the right, drop
chunks until the last kept chunk is a word (truthy after `strip()`) and the
line plus the 6-character placeholder `" [...]"` fits in `width`; if the
whole line is dropped, the result is the bare `"[...]"`
(`placeholder.lstrip()`).  The first argument is the reversed current line,
the `len` argument tracks its total length.  A chunk is truthy after
`strip()` iff it is neither empty nor the single-space separator, since
word chunks contain no whitespace. -/
def fitPlaceholderRev (width : Nat) : Nat → List (List Char) → List Char
  | _, [] => '['  :: '.' :: '.' :: '.' :: [']']
  | len, c :: rest =>
    if (c ≠ [] ∧ c ≠ [' ']) ∧ len + 6 ≤ width then
      ((c :: rest).reverse).flatten ++ (' ' :: '[' :: '.' :: '.' :: '.' :: [']'])
    else
      fitPlaceholderRev width (len - c.length) rest

/-- The `drop_whitespace` step of `TextWrapper._wrap_chunks` applied to the
single line: a trailing chunk that is whitespace-only (here: the
single-space separator, or an empty long-word fragment) is removed. -/
def dropTrailingWs (line : List (List Char)) : List (List Char) :=
  match line.getLast? with
  | some c => if c = [' '] ∨ c = [] then line.dropLast else line
  | none => line

/-- The tail of `TextWrapper._wrap_chunks`: after dropping a trailing
whitespace chunk, either emit the joined line (when every chunk was
consumed and the line fits) or run the placeholder logic. -/
def finishLine (width : Nat) (lw : List (List Char) × List (List Char)) :
    List Char :=
  let line := dropTrailingWs lw.1
  if lw.2 = [] ∧ (line.map List.length).sum ≤ width then
    line.flatten
  else
    fitPlaceholderRev width ((line.map List.length).sum) line.reverse

/-- One pass of `TextWrapper._wrap_chunks` with `max_lines=1`,
`drop_whitespace=True`, `break_long_words=True`, `placeholder=" [...]"` and
no indents: greedy fill, then the long-word chop, then dropping a trailing
whitespace chunk, and finally either the plain joined line (when every chunk
was consumed and the line fits) or the placeholder logic. -/
def wrapOneLine (width : Nat) (chunks : List (List Char)) : List Char :=
  let g := greedyFill width 0 chunks
  let lw : List (List Char) × List (List Char) :=
    match g.2 with
    | c :: cs =>
      if width < c.length then
        let spaceLeft := if width < 1 then 1 else width - (g.1.map List.length).sum
        (g.1 ++ [c.take spaceLeft], c.drop spaceLeft :: cs)
      else (g.1, g.2)
    | [] => (g.1, [])
  finishLine width lw

/-- Python `textwrap.shorten(s, width)` with the default placeholder `" [...]"`.
(The `ValueError` CPython raises when `width` is smaller than the stripped
placeholder, i.e. `width < 5`, is not modelled; theorems about `shorten`
assume `5 ≤ width`.) -/
def shorten (s : String) (width : Nat) : String :=
  String.mk (wrapOneLine width (wsChunks (pySplit s.data)))

/-- The whitespace-collapsed form `' '.join(s.split())` of a string, which
is what `shorten` returns whenever it fits within the width. -/
def collapseWs (s : String) : String :=
  String.mk (joinSpace (pySplit s.data))

/-- Python `textwrap.indent(text, "  ")` for the single-line, newline-free strings
`shorten` produces: the default predicate prefixes every line that is
non-empty, so a non-empty one-line string is prefixed once as a whole. -/
def indentTwo (s : String) : String :=
  if s.isEmpty then s else "  " ++ s

/-! ## `ROBOTError` (api.py lines 190-230) -/

/-- The spec's `ToolError`: the fields `ROBOTError.__init__` stores on the
exception object, together with the formatted message passed to
`super().__init__`. -/
structure ROBOTError where
  command : List String
  return_code : Int
  stdout : String
  preview_length : Nat
  stderr : String
  message : String
deriving DecidableEq

/-- Constructor `ROBOTError.__init__` (api.py lines 193-230): store the command and
return code, replace a `None` or empty stream by its placeholder
(`output or "<no stdout>"`, `stderr or "<no stderr>"`), and format the
message with the indented, shortened previews of both streams. -/
def mkROBOTError (command : List String) (return_code : Int)
    (output : Option String) (stderr : Option String)
    (preview_length : Nat) : ROBOTError :=
  let stdoutS :=
    match output with
    | some s => if s.isEmpty then "<no stdout>" else s
    | none => "<no stdout>"
  let stderrS :=
    match stderr with
    | some s => if s.isEmpty then "<no stderr>" else s
    | none => "<no stderr>"
  let command_str := String.intercalate " " command
  let stdout_preview := indentTwo (shorten stdoutS preview_length)
  let stderr_preview := indentTwo (shorten stderrS preview_length)
  let message :=
    "Command `" ++ command_str ++ "` returned non-zero exit status "
      ++ toString return_code ++ ".\n\nstderr:\n\n" ++ stderr_preview
      ++ "\n\nstdout:\n\n" ++ stdout_preview
  { command := command, return_code := return_code, stdout := stdoutS,
    preview_length := preview_length, stderr := stderrS, message := message }

/-! ## The process invoker (api.py lines 72-90) and availability probe
(lines 41-69) -/

/-- The outcome `subprocess.check_output` observes for one spawned process:
its exit status and the captured, decoded output streams (`None` models an
unavailable stream on the raised `CalledProcessError`). -/
structure ProcessResult where
  returncode : Int
  output : Option String
  stderr : Option String

/-- An exception escaping `call_robot`: either the `ROBOTError` it raises on
a non-zero exit, or some other exception propagating through it (e.g. a jar
resolution failure inside `str(get_robot_jar_path())`, which sits outside
the `try` block). -/
inductive CallError where
  | robot (e : ROBOTError)
  | exn (msg : String)

/-- api.py lines 72-90, `call_robot`: resolve the jar (outside the `try`, so
a resolution failure propagates unwrapped), build the full invocation
`["java", "-jar", jar] ++ args`, run it, return the decoded stdout on exit
code 0 and raise a `ROBOTError` built from the `CalledProcessError` fields
otherwise.  `resolve` stands for `get_robot_jar_path()` and `exec` for the
subprocess call. -/
def call_robot (resolve : Except String String)
    (exec : List String → ProcessResult) (args : List String) :
    Except CallError String :=
  match resolve with
  | .error msg => .error (.exn msg)
  | .ok jar =>
    let rr := ["java", "-jar", jar] ++ args
    let res := exec rr
    if res.returncode = 0 then
      .ok (res.output.getD "")
    else
      .error (.robot (mkROBOTError rr res.returncode res.output res.stderr 500))

/-- api.py lines 93-174, `convert`: build the argument list and invoke the
tool. -/
def convert (resolve : Except String String)
    (exec : List String → ProcessResult) (req : ConversionRequest) :
    Except CallError String :=
  call_robot resolve exec (buildConvertArgs req)

/-- The effectful collaborators of `is_available`: `shutil.which("java")`,
whether `check_output(["java", "--help"])` succeeds, the result of
`get_robot_jar_path()` (which may raise, e.g. on a failed download),
`Path.is_file`, and the subprocess runner used by `call_robot`. -/
structure RobotEnv where
  whichJava : Option String
  javaHelpOk : Bool
  resolveJar : Except String String
  isFile : String → Bool
  exec : List String → ProcessResult

/-- api.py lines 41-69, `is_available`: return `false` when `java` is not on
the PATH, when `java --help` fails, when the resolved jar is not a regular
file, or when `call_robot(["--help"])` raises; return `true` when all four
checks pass.  The call `get_robot_jar_path()` at line 57 is not guarded by
any `try`/`except`, so a jar-resolution failure propagates as an exception
(the `Except.error` branch) instead of yielding `false`. -/
def is_available (env : RobotEnv) : Except String Bool :=
  if env.whichJava.isNone then
    .ok false
  else if !env.javaHelpOk then
    .ok false
  else
    match env.resolveJar with
    | .error msg => .error msg
    | .ok jar =>
      if !env.isFile jar then
        .ok false
      else
        match call_robot env.resolveJar env.exec ["--help"] with
        | .error _ => .ok false
        | .ok _ => .ok true

/-! ## Concrete requests, oracles and environments for the closed instances -/

/-- A basic local conversion request with both `merge` and `reason` set. -/
def reqMergeReason : ConversionRequest :=
  { input_path := .str "in.obo", output_path := .str "out.owl", input_flag := none,
    merge := true, fmt := none, check := true, reason := true,
    extra_args := none, debug := false }

/-- A request for a remote input with no explicit flag. -/
def reqRemote : ConversionRequest :=
  { input_path := .str "https://example.org/onto.owl", output_path := .str "out.owl",
    input_flag := none, merge := false, fmt := none, check := true, reason := false,
    extra_args := none, debug := false }

/-- A request with `check=true` whose caller smuggles the literal
`"--check=false"` token in through `extra_args`. -/
def reqCheckInjected : ConversionRequest :=
  { input_path := .str "in.obo", output_path := .str "out.owl", input_flag := none,
    merge := false, fmt := none, check := true, reason := false,
    extra_args := some ["--check=false"], debug := false }

/-- A request with `check=false`, extra args, a format and debug, none of
whose caller-supplied strings collide with builder-emitted tokens. -/
def reqFull : ConversionRequest :=
  { input_path := .str "in.obo", output_path := .str "out.owl", input_flag := none,
    merge := true, fmt := some "ttl", check := false, reason := true,
    extra_args := some ["--strict"], debug := true }

/-- A request with `fmt=None` whose caller smuggles a `["--format", "ttl"]`
pair in through `extra_args`. -/
def reqFormatInjected : ConversionRequest :=
  { input_path := .str "in.obo", output_path := .str "out.owl", input_flag := none,
    merge := false, fmt := none, check := true, reason := false,
    extra_args := some ["--format", "ttl"], debug := false }

/-- A request with the empty-string format. -/
def reqEmptyFmt : ConversionRequest :=
  { input_path := .str "in.obo", output_path := .str "out.owl", input_flag := none,
    merge := false, fmt := some "", check := true, reason := false,
    extra_args := none, debug := false }

/-- A request with the empty extras list. -/
def reqEmptyExtras : ConversionRequest :=
  { input_path := .str "in.obo", output_path := .str "out.owl", input_flag := none,
    merge := false, fmt := none, check := true, reason := false,
    extra_args := some [], debug := false }

/-- A subprocess oracle whose every invocation fails with exit code 2. -/
def execFail : List String → ProcessResult :=
  fun _ => { returncode := 2, output := some "partial out", stderr := some "boom" }

/-- A subprocess oracle whose every invocation succeeds. -/
def execOk : List String → ProcessResult :=
  fun _ => { returncode := 0, output := some "ok", stderr := some "" }

/-- An environment in which java is present and working but jar resolution
raises (e.g. the download fails). -/
def envJarRaises : RobotEnv :=
  { whichJava := some "/usr/bin/java", javaHelpOk := true,
    resolveJar := .error "ConnectionError: download failed",
    isFile := fun _ => true, exec := execOk }

/-- An environment in which all four availability checks pass. -/
def envAllOk : RobotEnv :=
  { whichJava := some "/usr/bin/java", javaHelpOk := true,
    resolveJar := .ok "/home/user/.data/robot/1.9.8/robot.jar",
    isFile := fun _ => true, exec := execOk }

/-! ## Theorems for the claims about the command builder -/

/-- C1: the built command begins with exactly one of four fixed stage
sequences determined by `(merge, reason)`; in particular when both are
requested, `"merge"` stands at an index below an index holding `"reason"`,
which is below an index holding `"convert"`. -/
theorem convert_stage_sequence (req : ConversionRequest) :
    (req.merge = false → req.reason = false →
      (buildConvertArgs req).take 3 =
        ["convert", (resolveInputFlag req).render, req.input_path.strOf])
    ∧ (req.merge = true → req.reason = false →
      (buildConvertArgs req).take 4 =
        ["merge", (resolveInputFlag req).render, req.input_path.strOf, "convert"])
    ∧ (req.merge = false → req.reason = true →
      (buildConvertArgs req).take 4 =
        ["reason", (resolveInputFlag req).render, req.input_path.strOf, "convert"])
    ∧ (req.merge = true → req.reason = true →
      (buildConvertArgs req).take 5 =
        ["merge", (resolveInputFlag req).render, req.input_path.strOf, "reason", "convert"]
      ∧ ∃ i j k : Nat, i < j ∧ j < k
          ∧ (buildConvertArgs req)[i]? = some "merge"
          ∧ (buildConvertArgs req)[j]? = some "reason"
          ∧ (buildConvertArgs req)[k]? = some "convert") := by
  refine ⟨?_, ?_, ?_, ?_⟩ <;> intro hm hr
  · simp [buildConvertArgs, stageTokens, hm, hr]
  · simp [buildConvertArgs, stageTokens, hm, hr]
  · simp [buildConvertArgs, stageTokens, hm, hr]
  · refine ⟨by simp [buildConvertArgs, stageTokens, hm, hr],
      0, 3, 4, by omega, by omega, ?_, ?_, ?_⟩ <;>
      simp [buildConvertArgs, stageTokens, hm, hr]

/-- Witness for C1 at a concrete request with both `merge` and `reason`. -/
theorem convert_stage_sequence_witness :
    (buildConvertArgs reqMergeReason).take 5 =
      ["merge", "-i", "in.obo", "reason", "convert"]
    ∧ ∃ i j k : Nat, i < j ∧ j < k
        ∧ (buildConvertArgs reqMergeReason)[i]? = some "merge"
        ∧ (buildConvertArgs reqMergeReason)[j]? = some "reason"
        ∧ (buildConvertArgs reqMergeReason)[k]? = some "convert" := by
  have h := (convert_stage_sequence reqMergeReason).2.2.2 rfl rfl
  have e1 : (resolveInputFlag reqMergeReason).render = "-i" := by decide
  have e2 : reqMergeReason.input_path.strOf = "in.obo" := rfl
  rw [e1, e2] at h
  exact h

/-- C2: with no explicit flag, the remote flag `"-I"` is inferred exactly
for string inputs starting with one of the four protocol prefixes, and the
local flag `"-i"` for every other string input and for every non-string
(path) input regardless of its string form. -/
theorem infer_input_flag (req : ConversionRequest) (h : req.input_flag = none) :
    (resolveInputFlag req).render =
      match req.input_path with
      | .str s =>
        if pyStartsWith s "https://" || pyStartsWith s "http://"
            || pyStartsWith s "ftp://" || pyStartsWith s "ftps://" then "-I"
        else "-i"
      | .path _ => "-i" := by
  cases hip : req.input_path with
  | str s =>
    simp only [resolveInputFlag, h, _is_remote, hip, PROTOCOLS, List.any_cons,
      List.any_nil, Bool.or_false, Bool.or_assoc]
    split <;> simp [InputFlag.render]
  | path p =>
    simp [resolveInputFlag, h, _is_remote, hip, InputFlag.render]

/-- Witness for C2 at a concrete remote request. -/
theorem infer_input_flag_witness :
    (resolveInputFlag reqRemote).render = "-I" :=
  (infer_input_flag reqRemote rfl).trans (by decide)

/-- C9: an empty-string format builds exactly the same command as no
format at all. -/
theorem fmt_empty_eq_none (req : ConversionRequest) (h : req.fmt = some "") :
    buildConvertArgs req = buildConvertArgs { req with fmt := none } := by
  cases req with
  | mk ip op ifl m f c r e d =>
    subst h
    simp [buildConvertArgs, stageTokens, extrasTokens, checkTokens,
      fmtTokens, debugTokens, resolveInputFlag,
      show "".isEmpty = true from rfl]

/-- Witness for C9 at a concrete request. -/
theorem fmt_empty_eq_none_witness :
    buildConvertArgs reqEmptyFmt = buildConvertArgs { reqEmptyFmt with fmt := none } :=
  fmt_empty_eq_none reqEmptyFmt rfl

/-- C10: an empty extras list builds exactly the same command as no extras
at all. -/
theorem extra_args_empty_eq_none (req : ConversionRequest)
    (h : req.extra_args = some []) :
    buildConvertArgs req = buildConvertArgs { req with extra_args := none } := by
  cases req with
  | mk ip op ifl m f c r e d =>
    simp_all [buildConvertArgs, stageTokens, extrasTokens, checkTokens,
      fmtTokens, debugTokens, resolveInputFlag]

/-- Witness for C10 at a concrete request. -/
theorem extra_args_empty_eq_none_witness :
    buildConvertArgs reqEmptyExtras =
      buildConvertArgs { reqEmptyExtras with extra_args := none } :=
  extra_args_empty_eq_none reqEmptyExtras rfl

/-- A token distinct from the stage names, from both flag spellings and
from the input string does not occur among the stage tokens. -/
theorem not_mem_stageTokens (req : ConversionRequest) (t : String)
    (h1 : t ≠ "merge") (h2 : t ≠ "reason") (h3 : t ≠ "convert")
    (h4 : t ≠ "-i") (h5 : t ≠ "-I") (h6 : t ≠ req.input_path.strOf) :
    t ∉ stageTokens req := by
  have hflag : (resolveInputFlag req).render = "-i"
      ∨ (resolveInputFlag req).render = "-I" := by
    cases resolveInputFlag req <;> simp [InputFlag.render]
  rcases hflag with hf | hf <;>
    cases hm : req.merge <;> cases hr : req.reason <;>
      simp_all [stageTokens]

/-- A token absent from every block of the built command is absent from the
built command. -/
theorem not_mem_buildConvertArgs (req : ConversionRequest) (t : String)
    (hstage : t ∉ stageTokens req) (ho : t ≠ "-o")
    (hout : t ≠ req.output_path.strOf) (hextra : t ∉ extrasTokens req)
    (hcheck : t ∉ checkTokens req) (hfmt : t ∉ fmtTokens req)
    (hdebug : t ∉ debugTokens req) : t ∉ buildConvertArgs req := by
  simp only [buildConvertArgs, List.mem_append, List.mem_cons,
    List.not_mem_nil, or_false]
  tauto

/-- Splitting a list at an element that occurs nowhere else is unique: if
`x` occurs neither in `A` nor in `T`, then `A ++ x :: T = P ++ x :: Q`
forces `A = P` and `T = Q`. -/
theorem append_cons_inj {α : Type} {x : α} :
    ∀ (A P T Q : List α), A ++ x :: T = P ++ x :: Q → x ∉ A → x ∉ T →
      A = P ∧ T = Q := by
  intro A
  induction A with
  | nil =>
    intro P T Q h hA hT
    cases P with
    | nil =>
      rw [List.nil_append, List.nil_append] at h
      injection h with h1 h2
      exact ⟨rfl, h2⟩
    | cons p ps =>
      rw [List.nil_append, List.cons_append] at h
      injection h with h1 h2
      exfalso
      apply hT
      rw [h2]
      exact List.mem_append_right ps (List.mem_cons_self x Q)
  | cons a as ih =>
    intro P T Q h hA hT
    cases P with
    | nil =>
      rw [List.cons_append, List.nil_append] at h
      injection h with h1 h2
      exfalso
      apply hA
      rw [h1]
      exact List.mem_cons_self x as
    | cons p ps =>
      rw [List.cons_append, List.cons_append] at h
      injection h with h1 h2
      have hA2 : x ∉ as := fun hm => hA (List.mem_cons_of_mem a hm)
      obtain ⟨hap, htq⟩ := ih ps T Q h2 hA2 hT
      exact ⟨by rw [h1, hap], htq⟩

/-- C3 counterexample: with `check=true` and the literal token smuggled in
through `extra_args`, `"--check=false"` occurs once in the built command,
not zero times as the claim requires. -/
theorem check_flag_counterexample :
    reqCheckInjected.check = true
    ∧ (buildConvertArgs reqCheckInjected).count "--check=false" = 1 := by
  exact ⟨rfl, by decide⟩

/-- C3 amended: provided none of the caller-supplied strings (input,
output, extras, format) is itself the literal token `"--check=false"`, the
token occurs exactly once iff `check=false` and zero times iff
`check=true`, and when present it sits immediately after the extras block,
before the format pair and debug flag. -/
theorem check_flag_amended (req : ConversionRequest)
    (hextra : "--check=false" ∉ extrasTokens req)
    (hin : req.input_path.strOf ≠ "--check=false")
    (hout : req.output_path.strOf ≠ "--check=false")
    (hfmt : ∀ f, req.fmt = some f → f ≠ "--check=false") :
    ((buildConvertArgs req).count "--check=false" = if req.check then 0 else 1)
    ∧ (req.check = false →
        buildConvertArgs req =
          (stageTokens req ++ ["-o", req.output_path.strOf] ++ extrasTokens req)
            ++ "--check=false" :: (fmtTokens req ++ debugTokens req)) := by
  have hstage : "--check=false" ∉ stageTokens req :=
    not_mem_stageTokens req _ (by decide) (by decide) (by decide) (by decide)
      (by decide) (Ne.symm hin)
  have houtb : "--check=false" ∉ ["-o", req.output_path.strOf] := by
    simp only [List.mem_cons, List.not_mem_nil, or_false, not_or]
    exact ⟨by decide, Ne.symm hout⟩
  have hfmtb : "--check=false" ∉ fmtTokens req := by
    cases hf : req.fmt with
    | none => simp [fmtTokens, hf]
    | some f =>
      have hne := hfmt f hf
      simp only [fmtTokens, hf]
      split
      · simp
      · simp only [List.mem_cons, List.not_mem_nil, or_false, not_or]
        exact ⟨by decide, Ne.symm hne⟩
  have hdebugb : "--check=false" ∉ debugTokens req := by
    unfold debugTokens; split <;> simp
  constructor
  · simp only [buildConvertArgs, List.count_append]
    rw [List.count_eq_zero.mpr hstage, List.count_eq_zero.mpr houtb,
      List.count_eq_zero.mpr hextra, List.count_eq_zero.mpr hfmtb,
      List.count_eq_zero.mpr hdebugb]
    cases hc : req.check <;> simp [checkTokens, hc]
  · intro hc
    simp [buildConvertArgs, checkTokens, hc, List.append_assoc]

/-- Witness for the amended C3 at a concrete full request. -/
theorem check_flag_amended_witness :
    ((buildConvertArgs reqFull).count "--check=false" =
      if reqFull.check then 0 else 1)
    ∧ (reqFull.check = false →
        buildConvertArgs reqFull =
          (stageTokens reqFull ++ ["-o", reqFull.output_path.strOf]
              ++ extrasTokens reqFull)
            ++ "--check=false" :: (fmtTokens reqFull ++ debugTokens reqFull)) := by
  exact check_flag_amended reqFull (by decide) (by decide) (by decide)
    (by intro f hf
        have h2 : some "ttl" = some f := hf
        injection h2 with h3
        subst h3
        decide)

/-- C4 counterexample: with `fmt=None` and the pair smuggled in through
`extra_args`, the contiguous `["--format", "ttl"]` pair occurs in the built
command even though no format was given. -/
theorem format_pair_counterexample :
    reqFormatInjected.fmt = none
    ∧ (buildConvertArgs reqFormatInjected)[5]? = some "--format"
    ∧ (buildConvertArgs reqFormatInjected)[6]? = some "ttl" := by
  refine ⟨rfl, by decide, by decide⟩

/-- C4 amended: provided none of the caller-supplied strings (input,
output, extras, format value) is itself the literal token `"--format"`, the
contiguous pair `["--format", "ttl"]` occurs in the built command iff
`fmt="ttl"` was given, and then it sits after the output designation,
extras and check token, and before the debug flag. -/
theorem format_pair_amended (req : ConversionRequest)
    (hextra : "--format" ∉ extrasTokens req)
    (hin : req.input_path.strOf ≠ "--format")
    (hout : req.output_path.strOf ≠ "--format")
    (hfmt : ∀ f, req.fmt = some f → f ≠ "--format") :
    ((∃ pre post, buildConvertArgs req = pre ++ "--format" :: "ttl" :: post) ↔
      req.fmt = some "ttl")
    ∧ (req.fmt = some "ttl" →
        buildConvertArgs req =
          (stageTokens req ++ ["-o", req.output_path.strOf] ++ extrasTokens req
            ++ checkTokens req) ++ "--format" :: "ttl" :: debugTokens req) := by
  have hstage : "--format" ∉ stageTokens req :=
    not_mem_stageTokens req _ (by decide) (by decide) (by decide) (by decide)
      (by decide) (Ne.symm hin)
  have houtb : "--format" ∉ ["-o", req.output_path.strOf] := by
    simp only [List.mem_cons, List.not_mem_nil, or_false, not_or]
    exact ⟨by decide, Ne.symm hout⟩
  have hcheckb : "--format" ∉ checkTokens req := by
    unfold checkTokens; split <;> simp
  have hdebugb : "--format" ∉ debugTokens req := by
    unfold debugTokens; split <;> simp
  have hdecomp : req.fmt = some "ttl" →
      buildConvertArgs req =
        (stageTokens req ++ ["-o", req.output_path.strOf] ++ extrasTokens req
          ++ checkTokens req) ++ "--format" :: "ttl" :: debugTokens req := by
    intro hf
    simp [buildConvertArgs, fmtTokens, hf, List.append_assoc,
      show "ttl".isEmpty = false from rfl]
  refine ⟨⟨?_, fun hf => ⟨_, _, hdecomp hf⟩⟩, hdecomp⟩
  rintro ⟨pre, post, hpp⟩
  cases hf : req.fmt with
  | none =>
    exfalso
    have hnm : "--format" ∉ buildConvertArgs req :=
      not_mem_buildConvertArgs req _ hstage (by decide) (Ne.symm hout) hextra
        hcheckb (by simp [fmtTokens, hf]) hdebugb
    exact hnm (by rw [hpp]
                  exact List.mem_append_right pre (List.mem_cons_self _ _))
  | some f =>
    by_cases hfe : f = ""
    · exfalso
      have hnm : "--format" ∉ buildConvertArgs req :=
        not_mem_buildConvertArgs req _ hstage (by decide) (Ne.symm hout) hextra
          hcheckb (by simp [fmtTokens, hf, hfe,
            show "".isEmpty = true from rfl]) hdebugb
      exact hnm (by rw [hpp]
                    exact List.mem_append_right pre (List.mem_cons_self _ _))
    · have hb : buildConvertArgs req =
          (stageTokens req ++ ["-o", req.output_path.strOf] ++ extrasTokens req
            ++ checkTokens req) ++ "--format" :: (f :: debugTokens req) := by
        have hfe2 : f.isEmpty = false := by
          cases hfe3 : f.isEmpty
          · rfl
          · exact absurd ((String.isEmpty_iff f).mp hfe3) hfe
        simp [buildConvertArgs, fmtTokens, hf, hfe2, List.append_assoc]
      rw [hb] at hpp
      have hxA : "--format" ∉ (stageTokens req ++ ["-o", req.output_path.strOf]
          ++ extrasTokens req ++ checkTokens req) := by
        simp only [List.mem_append]
        tauto
      have hxT : "--format" ∉ f :: debugTokens req := by
        simp only [List.mem_cons, not_or]
        exact ⟨Ne.symm (hfmt f hf), hdebugb⟩
      obtain ⟨hA, hT⟩ :=
        append_cons_inj _ pre (f :: debugTokens req) ("ttl" :: post) hpp hxA hxT
      injection hT with h1 h2
      exact congrArg some h1

/-- Witness for the amended C4 at a concrete full request. -/
theorem format_pair_amended_witness :
    ((∃ pre post, buildConvertArgs reqFull = pre ++ "--format" :: "ttl" :: post) ↔
      reqFull.fmt = some "ttl")
    ∧ (reqFull.fmt = some "ttl" →
        buildConvertArgs reqFull =
          (stageTokens reqFull ++ ["-o", reqFull.output_path.strOf]
            ++ extrasTokens reqFull ++ checkTokens reqFull)
            ++ "--format" :: "ttl" :: debugTokens reqFull) := by
  exact format_pair_amended reqFull (by decide) (by decide) (by decide)
    (by intro f hf
        have h2 : some "ttl" = some f := hf
        injection h2 with h3
        subst h3
        decide)

/-! ## Theorems about the invoker, the error object and the probe -/

/-- C5: for every token list (and any subprocess behaviour), the invoker
returns the decoded standard output when the process exits with code 0, and
for any non-zero exit it raises a `ROBOTError` whose `command` field equals
exactly the invoked token list and whose `return_code` field equals the
process's exit status. -/
theorem call_robot_spec (jar : String) (exec : List String → ProcessResult)
    (args : List String) :
    ((exec (["java", "-jar", jar] ++ args)).returncode = 0 →
      call_robot (.ok jar) exec args =
        .ok ((exec (["java", "-jar", jar] ++ args)).output.getD ""))
    ∧ ((exec (["java", "-jar", jar] ++ args)).returncode ≠ 0 →
      ∃ e : ROBOTError,
        call_robot (.ok jar) exec args = .error (.robot e)
        ∧ e.command = ["java", "-jar", jar] ++ args
        ∧ e.return_code = (exec (["java", "-jar", jar] ++ args)).returncode) := by
  constructor
  · intro h
    simp only [List.cons_append, List.nil_append] at h
    simp [call_robot, h]
  · intro h
    simp only [List.cons_append, List.nil_append] at h
    refine ⟨mkROBOTError (["java", "-jar", jar] ++ args)
        (exec (["java", "-jar", jar] ++ args)).returncode
        (exec (["java", "-jar", jar] ++ args)).output
        (exec (["java", "-jar", jar] ++ args)).stderr 500, ?_, rfl, rfl⟩
    simp [call_robot, h]

/-- Witness for C5 at a concrete failing subprocess oracle. -/
theorem call_robot_spec_witness :
    (execFail (["java", "-jar", "robot.jar"] ++ ["--help"])).returncode ≠ 0
    ∧ ∃ e : ROBOTError,
        call_robot (.ok "robot.jar") execFail ["--help"] = .error (.robot e)
        ∧ e.command = ["java", "-jar", "robot.jar"] ++ ["--help"]
        ∧ e.return_code =
            (execFail (["java", "-jar", "robot.jar"] ++ ["--help"])).returncode :=
  ⟨by decide, (call_robot_spec "robot.jar" execFail ["--help"]).2 (by decide)⟩

/-- C7: an empty or unavailable (`None`) stream is stored as its
placeholder string, independently for stdout and stderr; a non-empty stream
is stored as given. -/
theorem robot_error_placeholders (cmd : List String) (rc : Int)
    (output stde : Option String) (pl : Nat) :
    ((output = none ∨ output = some "") →
      (mkROBOTError cmd rc output stde pl).stdout = "<no stdout>")
    ∧ (∀ s, output = some s → s ≠ "" →
      (mkROBOTError cmd rc output stde pl).stdout = s)
    ∧ ((stde = none ∨ stde = some "") →
      (mkROBOTError cmd rc output stde pl).stderr = "<no stderr>")
    ∧ (∀ s, stde = some s → s ≠ "" →
      (mkROBOTError cmd rc output stde pl).stderr = s) := by
  refine ⟨?_, ?_, ?_, ?_⟩
  · rintro (h | h) <;> subst h <;> rfl
  · intro s hs hne
    subst hs
    have he : s.isEmpty = false := by
      cases h2 : s.isEmpty
      · rfl
      · exact absurd ((String.isEmpty_iff s).mp h2) hne
    simp [mkROBOTError, he]
  · rintro (h | h) <;> subst h <;> rfl
  · intro s hs hne
    subst hs
    have he : s.isEmpty = false := by
      cases h2 : s.isEmpty
      · rfl
      · exact absurd ((String.isEmpty_iff s).mp h2) hne
    simp [mkROBOTError, he]

/-- Witness for C7 at a concrete error with no stdout and non-empty
stderr. -/
theorem robot_error_placeholders_witness :
    (mkROBOTError ["robot"] 1 none (some "boom") 500).stdout = "<no stdout>"
    ∧ (mkROBOTError ["robot"] 1 none (some "boom") 500).stderr = "boom" := by
  have h := robot_error_placeholders ["robot"] 1 none (some "boom") 500
  exact ⟨h.1 (Or.inl rfl), h.2.2.2 "boom" rfl (by decide)⟩

/-- C8 counterexample: with java present and working but jar resolution
raising (e.g. the download fails), `is_available` propagates the exception
instead of returning `false`, because the `get_robot_jar_path()` call at
api.py line 57 sits outside any `try` block. -/
theorem is_available_counterexample :
    is_available envJarRaises = .error "ConnectionError: download failed" := rfl

/-- C8 amended: provided jar path resolution does not raise, the
availability probe returns a boolean and never raises: `true` exactly when
all four checks pass (launcher on PATH, launcher help works, jar is a file,
tool help invocation succeeds), `false` as soon as any single check
fails. -/
theorem is_available_amended (env : RobotEnv) (jar : String)
    (h : env.resolveJar = .ok jar) :
    is_available env =
      .ok (env.whichJava.isSome && env.javaHelpOk && env.isFile jar
        && (call_robot env.resolveJar env.exec ["--help"]).isOk) := by
  cases hw : env.whichJava with
  | none => simp [is_available, hw]
  | some j =>
    cases hj : env.javaHelpOk with
    | false => simp [is_available, hw, hj]
    | true =>
      cases hfl : env.isFile jar with
      | false => simp [is_available, hw, hj, h, hfl]
      | true =>
        cases hcr : call_robot (Except.ok jar) env.exec ["--help"] with
        | error e => simp [is_available, hw, hj, h, hfl, hcr, Except.isOk, Except.toBool]
        | ok s => simp [is_available, hw, hj, h, hfl, hcr, Except.isOk, Except.toBool]

/-- Witness for the amended C8 at a concrete all-passing environment. -/
theorem is_available_amended_witness :
    is_available envAllOk = .ok true := by
  have h := is_available_amended envAllOk "/home/user/.data/robot/1.9.8/robot.jar" rfl
  exact h.trans (by rfl)

/-! ## Lemmas about the `shorten` preview -/

/-- Concatenating the chunk sequence yields the single-space join of the
words. -/
theorem flatten_wsChunks : ∀ ws : List (List Char),
    (wsChunks ws).flatten = joinSpace ws := by
  intro ws
  induction ws with
  | nil => rfl
  | cons w t ih =>
    cases t with
    | nil => simp [wsChunks, joinSpace]
    | cons v t2 =>
      show (w :: [' '] :: wsChunks (v :: t2)).flatten = w ++ ' ' :: joinSpace (v :: t2)
      simp only [List.flatten_cons]
      rw [ih]
      simp

/-- The chunk lengths sum to the length of the single-space join. -/
theorem sum_wsChunks (ws : List (List Char)) :
    ((wsChunks ws).map List.length).sum = (joinSpace ws).length := by
  rw [← List.length_flatten, flatten_wsChunks]

/-- The greedy fill consumes every chunk when their total length fits. -/
theorem greedyFill_all (w : Nat) : ∀ (cs : List (List Char)) (len : Nat),
    len + ((cs.map List.length).sum) ≤ w → greedyFill w len cs = (cs, []) := by
  intro cs
  induction cs with
  | nil => intro len _; rfl
  | cons c t ih =>
    intro len h
    simp only [List.map_cons, List.sum_cons] at h
    have hc : len + c.length ≤ w := by omega
    simp only [greedyFill, if_pos hc]
    rw [ih (len + c.length) (by omega)]

/-- Every word produced by the Python splitter is non-empty and contains no
whitespace character. -/
theorem pySplitAux_words : ∀ (l acc : List Char),
    (∀ c ∈ acc, pyIsSpace c = false) →
    ∀ x ∈ pySplitAux l acc, x ≠ [] ∧ ∀ c ∈ x, pyIsSpace c = false := by
  intro l
  induction l with
  | nil =>
    intro acc hacc x hx
    simp only [pySplitAux] at hx
    split at hx
    · simp at hx
    · rename_i hne
      simp only [List.mem_singleton] at hx
      subst hx
      refine ⟨?_, ?_⟩
      · simp only [ne_eq, List.reverse_eq_nil_iff]
        intro hnil
        rw [hnil] at hne
        exact hne rfl
      · intro c hc
        exact hacc c (List.mem_reverse.mp hc)
  | cons c cs ih =>
    intro acc hacc x hx
    simp only [pySplitAux] at hx
    split at hx
    · split at hx
      · exact ih [] (by intro d hd; simp at hd) x hx
      · rename_i hsp hne
        rcases List.mem_cons.mp hx with h | h
        · subst h
          refine ⟨?_, ?_⟩
          · simp only [ne_eq, List.reverse_eq_nil_iff]
            intro hnil
            rw [hnil] at hne
            exact hne rfl
          · intro d hd
            exact hacc d (List.mem_reverse.mp hd)
        · exact ih [] (by intro d hd; simp at hd) x h
    · rename_i hsp
      refine ih (c :: acc) ?_ x hx
      intro d hd
      rcases List.mem_cons.mp hd with h | h
      · subst h
        cases hpc : pyIsSpace d
        · rfl
        · exact absurd hpc hsp
      · exact hacc d h

/-- The last chunk is the last word. -/
theorem getLast?_wsChunks : ∀ ws : List (List Char), ws ≠ [] →
    (wsChunks ws).getLast? = ws.getLast? := by
  intro ws
  induction ws with
  | nil => intro h; exact absurd rfl h
  | cons w t ih =>
    intro _
    cases t with
    | nil => rfl
    | cons v t2 =>
      have ihv := ih (by simp)
      obtain ⟨c0, rest, hcr⟩ : ∃ c0 rest, wsChunks (v :: t2) = c0 :: rest := by
        cases t2 <;> exact ⟨_, _, rfl⟩
      show (w :: [' '] :: wsChunks (v :: t2)).getLast? = (w :: v :: t2).getLast?
      rw [List.getLast?_cons_cons, hcr, List.getLast?_cons_cons, ← hcr, ihv,
        List.getLast?_cons_cons]

/-- When every chunk fits in the width and the last chunk is a word, the
single-line wrap is just the concatenation of the chunks. -/
theorem wrapOneLine_of_fits (w : Nat) (chunks : List (List Char))
    (hsum : ((chunks.map List.length).sum) ≤ w)
    (hlast : ∀ c, chunks.getLast? = some c → ¬(c = [' '] ∨ c = [])) :
    wrapOneLine w chunks = chunks.flatten := by
  have hg : greedyFill w 0 chunks = (chunks, []) :=
    greedyFill_all w chunks 0 (by omega)
  cases hcl : chunks.getLast? with
  | none => simp [wrapOneLine, finishLine, dropTrailingWs, hg, hcl, hsum]
  | some c =>
    have hnc := hlast c hcl
    simp [wrapOneLine, finishLine, dropTrailingWs, hg, hcl, hnc, hsum]

/-- When the collapsed text fits in the width, `shorten` returns it
unchanged. -/
theorem shorten_eq_collapse (s : String) (w : Nat)
    (h : (collapseWs s).length ≤ w) : shorten s w = collapseWs s := by
  have hwords : ∀ x ∈ pySplit s.data, x ≠ [] ∧ ∀ c ∈ x, pyIsSpace c = false :=
    pySplitAux_words s.data [] (by intro c hc; simp at hc)
  have hsum : ((wsChunks (pySplit s.data)).map List.length).sum ≤ w := by
    rw [sum_wsChunks]
    exact h
  have hlast : ∀ c, (wsChunks (pySplit s.data)).getLast? = some c →
      ¬(c = [' '] ∨ c = []) := by
    intro c hc
    cases hL : pySplit s.data with
    | nil =>
      rw [hL] at hc
      simp [wsChunks] at hc
    | cons v t =>
      rw [hL] at hc
      rw [getLast?_wsChunks (v :: t) (by simp)] at hc
      have hmem : c ∈ v :: t := List.mem_of_getLast?_eq_some hc
      rw [← hL] at hmem
      obtain ⟨hne, hnosp⟩ := hwords c hmem
      rintro (hsp | hnil)
      · subst hsp
        have := hnosp ' ' (by simp)
        simp [pyIsSpace] at this
      · exact hne hnil
  show String.mk (wrapOneLine w (wsChunks (pySplit s.data)))
      = String.mk (joinSpace (pySplit s.data))
  rw [wrapOneLine_of_fits w _ hsum hlast, flatten_wsChunks]

/-- The placeholder logic always produces a line within the width. -/
theorem fitPlaceholderRev_length_le (w : Nat) (h5 : 5 ≤ w) :
    ∀ (rline : List (List Char)) (len : Nat),
      len = (rline.map List.length).sum →
      (fitPlaceholderRev w len rline).length ≤ w := by
  intro rline
  induction rline with
  | nil =>
    intro len _
    simpa [fitPlaceholderRev] using h5
  | cons c rest ih =>
    intro len h
    simp only [List.map_cons, List.sum_cons] at h
    rw [fitPlaceholderRev]
    split
    · rename_i hcond
      rw [List.length_append]
      have hfl : (((c :: rest).reverse).flatten).length = len := by
        rw [List.length_flatten, List.map_reverse, List.sum_reverse]
        simp only [List.map_cons, List.sum_cons]
        omega
      have h6 : len + 6 ≤ w := hcond.2
      simp only [List.length_cons, List.length_nil]
      omega
    · exact ih (len - c.length) (by omega)

/-- The finishing step always produces a line within the width. -/
theorem finishLine_length_le (w : Nat) (h5 : 5 ≤ w)
    (lw : List (List Char) × List (List Char)) :
    (finishLine w lw).length ≤ w := by
  simp only [finishLine]
  split
  · rename_i hcond
    rw [List.length_flatten]
    exact hcond.2
  · exact fitPlaceholderRev_length_le w h5 _ _
      (by rw [List.map_reverse, List.sum_reverse])

/-- The single-line wrap always fits in the width (for widths at least the
stripped placeholder). -/
theorem wrapOneLine_length_le (w : Nat) (h5 : 5 ≤ w)
    (chunks : List (List Char)) : (wrapOneLine w chunks).length ≤ w := by
  simp only [wrapOneLine]
  exact finishLine_length_le w h5 _

/-- The `shorten` preview never exceeds the width. -/
theorem shorten_length_le (s : String) (w : Nat) (h5 : 5 ≤ w) :
    (shorten s w).length ≤ w := by
  show (String.mk (wrapOneLine w (wsChunks (pySplit s.data)))).length ≤ w
  rw [show ∀ l : List Char, (String.mk l).length = l.length from fun l => rfl]
  exact wrapOneLine_length_le w h5 _

/-- The single-space join of one more word is at most the word, a
separator, and the join of the rest. -/
theorem joinSpace_cons_length_le (a : List Char) (ws : List (List Char)) :
    (joinSpace (a :: ws)).length ≤ a.length + 1 + (joinSpace ws).length := by
  cases ws with
  | nil => simp [joinSpace]
  | cons b t =>
    show (a ++ ' ' :: joinSpace (b :: t)).length ≤ _
    simp [List.length_append]
    omega

/-- Collapsing whitespace never lengthens the text. -/
theorem joinSpace_pySplitAux_length_le :
    ∀ (l acc : List Char),
      (joinSpace (pySplitAux l acc)).length ≤ acc.length + l.length := by
  intro l
  induction l with
  | nil =>
    intro acc
    simp only [pySplitAux]
    split
    · simp [joinSpace]
    · simp [joinSpace]
  | cons c cs ih =>
    intro acc
    simp only [pySplitAux]
    split
    · split
      · exact le_trans (ih []) (by simp; omega)
      · calc (joinSpace (acc.reverse :: pySplitAux cs [])).length
            ≤ acc.reverse.length + 1 + (joinSpace (pySplitAux cs [])).length :=
              joinSpace_cons_length_le _ _
          _ ≤ acc.length + 1 + cs.length := by
              have := ih []
              simp only [List.length_nil] at this
              simp only [List.length_reverse]
              omega
          _ ≤ acc.length + (c :: cs).length := by simp; omega
    · exact le_trans (ih (c :: acc)) (by simp; omega)

/-- The whitespace-collapsed form of a string is at most as long as the
string. -/
theorem collapseWs_length_le (s : String) : (collapseWs s).length ≤ s.length := by
  show (String.mk (joinSpace (pySplit s.data))).length ≤ s.length
  rw [show ∀ l : List Char, (String.mk l).length = l.length from fun l => rfl]
  show (joinSpace (pySplitAux s.data [])).length ≤ s.length
  have h := joinSpace_pySplitAux_length_le s.data []
  simpa using h

/-- C6 counterexample: a stream shorter than `preview_length` whose
whitespace is not already collapsed has a preview different from the
original text, because `textwrap.shorten` collapses runs of whitespace
before truncating. -/
theorem preview_counterexample :
    (mkROBOTError ["robot"] 1 (some "a  b") none 500).stdout.length <
      (mkROBOTError ["robot"] 1 (some "a  b") none 500).preview_length
    ∧ shorten (mkROBOTError ["robot"] 1 (some "a  b") none 500).stdout
        (mkROBOTError ["robot"] 1 (some "a  b") none 500).preview_length
      ≠ (mkROBOTError ["robot"] 1 (some "a  b") none 500).stdout := by
  exact ⟨by decide, by decide⟩

/-- C6 amended: for every `ToolError` (given a width of at least the
5-character stripped placeholder, below which the Python constructor
raises `ValueError`), the previews of both stored streams are
length-bounded by `preview_length`; and for a stream shorter than
`preview_length` the preview equals the whitespace-collapsed stream —
which is the original text exactly when its whitespace is already single
spaces between words. -/
theorem preview_truncation (cmd : List String) (rc : Int)
    (output stde : Option String) (pl : Nat) (h5 : 5 ≤ pl) :
    ((shorten (mkROBOTError cmd rc output stde pl).stdout
        (mkROBOTError cmd rc output stde pl).preview_length).length ≤ pl
      ∧ ((mkROBOTError cmd rc output stde pl).stdout.length < pl →
          shorten (mkROBOTError cmd rc output stde pl).stdout
              (mkROBOTError cmd rc output stde pl).preview_length
            = collapseWs (mkROBOTError cmd rc output stde pl).stdout))
    ∧ ((shorten (mkROBOTError cmd rc output stde pl).stderr
        (mkROBOTError cmd rc output stde pl).preview_length).length ≤ pl
      ∧ ((mkROBOTError cmd rc output stde pl).stderr.length < pl →
          shorten (mkROBOTError cmd rc output stde pl).stderr
              (mkROBOTError cmd rc output stde pl).preview_length
            = collapseWs (mkROBOTError cmd rc output stde pl).stderr)) := by
  have hpl : (mkROBOTError cmd rc output stde pl).preview_length = pl := rfl
  rw [hpl]
  refine ⟨⟨shorten_length_le _ _ h5, ?_⟩, ⟨shorten_length_le _ _ h5, ?_⟩⟩
  · intro hshort
    exact shorten_eq_collapse _ _
      (le_trans (collapseWs_length_le _) (Nat.le_of_lt hshort))
  · intro hshort
    exact shorten_eq_collapse _ _
      (le_trans (collapseWs_length_le _) (Nat.le_of_lt hshort))

/-- Witness for the amended C6 at a concrete error object. -/
theorem preview_truncation_witness :
    ((shorten (mkROBOTError ["robot"] 1 (some "hello world") (some "a  b") 500).stdout
        (mkROBOTError ["robot"] 1 (some "hello world") (some "a  b") 500).preview_length).length ≤ 500
      ∧ ((mkROBOTError ["robot"] 1 (some "hello world") (some "a  b") 500).stdout.length < 500 →
          shorten (mkROBOTError ["robot"] 1 (some "hello world") (some "a  b") 500).stdout
              (mkROBOTError ["robot"] 1 (some "hello world") (some "a  b") 500).preview_length
            = collapseWs (mkROBOTError ["robot"] 1 (some "hello world") (some "a  b") 500).stdout))
    ∧ ((shorten (mkROBOTError ["robot"] 1 (some "hello world") (some "a  b") 500).stderr
        (mkROBOTError ["robot"] 1 (some "hello world") (some "a  b") 500).preview_length).length ≤ 500
      ∧ ((mkROBOTError ["robot"] 1 (some "hello world") (some "a  b") 500).stderr.length < 500 →
          shorten (mkROBOTError ["robot"] 1 (some "hello world") (some "a  b") 500).stderr
              (mkROBOTError ["robot"] 1 (some "hello world") (some "a  b") 500).preview_length
            = collapseWs (mkROBOTError ["robot"] 1 (some "hello world") (some "a  b") 500).stderr)) :=
  preview_truncation ["robot"] 1 (some "hello world") (some "a  b") 500 (by omega)

end RobotOboTool
